import Mathlib

/-!
Verification of `scripts/daily-portfolio-maintenance.js` against its
specification.  Each JavaScript function relevant to the claims is given a
shallow embedding as a Lean definition; the theorems below settle the claims
about those functions.
-/

set_option maxRecDepth 4000

namespace DailyPortfolioMaintenance

/-! ## Section 1: daily fact rotation (`rotateFactCategory`) -/

/-- The fixed rotation cycle of fact categories (`ROTATION_CYCLE` in the
source: `['LIFE', 'PEOPLE', 'TECH']`). -/
def ROTATION_CYCLE : List String := ["LIFE", "PEOPLE", "TECH"]

/-- A JavaScript number as it can appear in the rotation-index arithmetic:
either a finite (JSON) integer, or `NaN` (the value of `undefined + 1`, which
arises when the parsed state has no `currentIndex` field).  The persisted
rotation states only ever hold integers, so finite numbers are modelled as
`Int`. -/
inductive JSNum where
  | int (n : Int)
  | nan
deriving DecidableEq

/-- JavaScript `v + 1` where `v` is the value of `existing.currentIndex`:
`none` models the field being `undefined` (absent from the parsed object), and
`undefined + 1` evaluates to `NaN`. -/
def jsAddOne : Option JSNum → JSNum
  | none => JSNum.nan
  | some JSNum.nan => JSNum.nan
  | some (JSNum.int n) => JSNum.int (n + 1)

/-- JavaScript remainder `a % m`: the result carries the sign of the dividend
(`Int.tmod`), and `NaN % m` is `NaN`. -/
def jsMod (a : JSNum) (m : Int) : JSNum :=
  match a with
  | JSNum.nan => JSNum.nan
  | JSNum.int n => JSNum.int (n.tmod m)

/-- JavaScript array indexing `xs[i]`: a negative, out-of-range or `NaN` index
yields `undefined` (modelled as `none`). -/
def jsIndex (xs : List String) : JSNum → Option String
  | JSNum.int n => if n < 0 then none else xs[n.toNat]?
  | JSNum.nan => none

/-- The rotation state that `rotateFactCategory` writes back to
`fact-rotation-state.json` and returns: `currentIndex` and `currentCategory`
are whatever JavaScript values the arithmetic produced (the category is
`undefined`, i.e. `none`, when the index falls outside the cycle). -/
structure RotationState where
  currentIndex : JSNum
  currentCategory : Option String
  lastUpdated : Nat
deriving DecidableEq

/-- The prior content of the rotation state file as `rotateFactCategory` can
observe it: the file may be missing (`fs.existsSync` false); reading, parsing
or the property access may throw (unparsable JSON, or a parsed `null`), which
the `catch` turns into the fresh-start path; or parsing succeeds and
`existing.currentIndex` is either `undefined` (field absent, e.g. the file
holds `{}` or a bare number) or an integer. -/
inductive PriorRotationFile where
  | missing
  | unparsable
  | parsed (currentIndex : Option JSNum)

/-- Shallow embedding of `rotateFactCategory` (source lines 47-72).  The state
starts as `{currentIndex: 0, lastUpdated: now}`; when the file exists and is
readable, `currentIndex` becomes `(existing.currentIndex + 1) %
ROTATION_CYCLE.length`; then `currentCategory = ROTATION_CYCLE[currentIndex]`
and `lastUpdated = now` are set and the state is written back and returned. -/
def rotateFactCategory (prior : PriorRotationFile) (now : Nat) : RotationState :=
  let currentIndex : JSNum :=
    match prior with
    | PriorRotationFile.missing => JSNum.int 0
    | PriorRotationFile.unparsable => JSNum.int 0
    | PriorRotationFile.parsed existingIndex =>
        jsMod (jsAddOne existingIndex) (ROTATION_CYCLE.length : Int)
  { currentIndex := currentIndex
    currentCategory := jsIndex ROTATION_CYCLE currentIndex
    lastUpdated := now }

/-- The sequence of `writeFileSync` calls to the rotation state file that one
invocation of `rotateFactCategory` performs: exactly one write, of the state
it returns. -/
def rotateFactCategoryWrites (prior : PriorRotationFile) (now : Nat) :
    List RotationState :=
  [rotateFactCategory prior now]

/-- One further invocation of `rotateFactCategory` after a previous one: the
next run re-reads the state file the previous run wrote, whose `currentIndex`
field is the previously returned state's `currentIndex`. -/
def stepRotation (now : Nat) (s : RotationState) : RotationState :=
  rotateFactCategory (PriorRotationFile.parsed (some s.currentIndex)) now

/-! ## Section 2: repository statistics (`fetchRepositoryStats`, `saveRepositoryStats`) -/

/-- JavaScript `v || d` for a string-or-null/undefined field: `null`,
`undefined` and the empty string are falsy, so they yield the default `d`. -/
def jsOrStr (v : Option String) (d : String) : String :=
  match v with
  | none => d
  | some s => if s = "" then d else s

/-- A raw repository object as returned by `octokit.rest.repos.listForUser`,
restricted to the fields `fetchRepositoryStats` reads.  The JavaScript field
`private` is spelled `privateFlag` here because `private` is a Lean keyword. -/
structure RawRepo where
  name : String
  html_url : String
  description : Option String
  language : Option String
  stargazers_count : Nat
  forks_count : Nat
  open_issues_count : Nat
  topics : Option (List String)
  fork : Bool
  privateFlag : Bool
  archived : Bool
  size : Nat
  watchers_count : Nat
  updated_at : String
  created_at : String
  pushed_at : String
  visibility : String
  default_branch : String
deriving DecidableEq

/-- `total_commits` / `recent_activity` of a per-repository record: a number
on success, the sentinel string `'N/A'` when the commit-activity fetch for
that repository threw. -/
inductive ActivityVal where
  | num (n : Nat)
  | na
deriving DecidableEq

/-- A per-repository record as built by `fetchRepositoryStats` (the `map` on
lines 127-146 plus the enrichment on lines 149-164). -/
structure RepoStat where
  name : String
  url : String
  description : String
  language : String
  stars : Nat
  forks : Nat
  open_issues : Nat
  topics : List String
  is_fork : Bool
  is_private : Bool
  is_archived : Bool
  size_kb : Nat
  watchers : Nat
  last_updated : String
  created_at : String
  pushed_at : String
  visibility : String
  default_branch : String
  total_commits : ActivityVal
  recent_activity : ActivityVal
deriving DecidableEq

/-- One repository's record: the field mapping of lines 127-146, then the
enrichment of lines 149-164.  `commitWeeks` is the result of
`getCommitActivityData` for this repository: `some weeks` gives the list of
per-week commit totals, `none` means the request threw and the sentinels are
assigned.  `total_commits` sums all weeks; `recent_activity` sums the last
four (`slice(-4)`, the whole list when shorter). -/
def mkRepoStat (repo : RawRepo) (commitWeeks : Option (List Nat)) : RepoStat :=
  { name := repo.name
    url := repo.html_url
    description := jsOrStr repo.description "N/A"
    language := jsOrStr repo.language "Unknown"
    stars := repo.stargazers_count
    forks := repo.forks_count
    open_issues := repo.open_issues_count
    topics := repo.topics.getD []
    is_fork := repo.fork
    is_private := repo.privateFlag
    is_archived := repo.archived
    size_kb := repo.size
    watchers := repo.watchers_count
    last_updated := repo.updated_at
    created_at := repo.created_at
    pushed_at := repo.pushed_at
    visibility := repo.visibility
    default_branch := repo.default_branch
    total_commits :=
      match commitWeeks with
      | some weeks => ActivityVal.num weeks.sum
      | none => ActivityVal.na
    recent_activity :=
      match commitWeeks with
      | some weeks => ActivityVal.num (weeks.drop (weeks.length - 4)).sum
      | none => ActivityVal.na }

/-- The record list `fetchRepositoryStats` produces from the paginated raw
listing: one `mkRepoStat` per repository, with `commitData` giving each
repository's commit-activity response (keyed by repository name, as the API
call is). -/
def fetchRepositoryStatsRecords (repos : List RawRepo)
    (commitData : String → Option (List Nat)) : List RepoStat :=
  repos.map (fun repo => mkRepoStat repo (commitData repo.name))

/-- One page request issued by the pagination loop of `fetchRepositoryStats`
(lines 108-125): `per_page` is always 100, `page` starts at 1 and increments. -/
structure ListReposRequest where
  per_page : Nat
  page : Nat
deriving DecidableEq

/-- The `while (true)` pagination loop of lines 111-125: fetch a page, stop
when it is empty, otherwise append it and continue with the next page number.
`listing` is the remote listing; the unbounded loop is given `fuel`, and
`none` means the fuel ran out before an empty page was seen.  On success the
result is the list of requests issued and the accumulated repositories. -/
def fetchAllPages (listing : ListReposRequest → List RawRepo) :
    Nat → Nat → List RawRepo → Option (List ListReposRequest × List RawRepo)
  | 0, _, _ => none
  | fuel + 1, page, acc =>
      let req : ListReposRequest := { per_page := 100, page := page }
      let data := listing req
      if data.isEmpty then some ([req], acc)
      else
        match fetchAllPages listing fuel (page + 1) (acc ++ data) with
        | none => none
        | some (reqs, out) => some (req :: reqs, out)

/-- The pagination of `fetchRepositoryStats`: the loop starts at page 1 with
an empty accumulator. -/
def fetchRepositoryStatsPagination (listing : ListReposRequest → List RawRepo)
    (fuel : Nat) : Option (List ListReposRequest × List RawRepo) :=
  fetchAllPages listing fuel 1 []

/-- An entry of the summary's `most_active` list: `{ name, activity }`. -/
structure MostActiveEntry where
  name : String
  activity : ActivityVal
deriving DecidableEq

/-- The summary object `saveRepositoryStats` writes to `repo-stats.json`
(timestamp omitted: no claim mentions it). -/
structure RepoStatsSummary where
  total_repos : Nat
  active_repos : Nat
  total_stars : Nat
  total_forks : Nat
  by_language : List (String × Nat)
  most_active : List MostActiveEntry
  repositories : List RepoStat
deriving DecidableEq

/-- `ToNumber(x || 0)` as it occurs in the sort comparator
`(b.recent_activity || 0) - (a.recent_activity || 0)`: a number keeps its
value (`0` is falsy but `0 || 0` is still `0`); the string `'N/A'` is truthy,
survives the `||`, and converts to `NaN` (`none`). -/
def activityOrZeroNum : ActivityVal → Option Int
  | ActivityVal.num n => some (n : Int)
  | ActivityVal.na => none

/-- The ECMAScript `SortCompare` of the comparator on line 189: the numeric
difference when both operands are numbers, and `+0` when the subtraction
produced `NaN` (the spec maps a `NaN` comparator result to `+0`). -/
def sortCompare (a b : RepoStat) : Int :=
  match activityOrZeroNum b.recent_activity, activityOrZeroNum a.recent_activity with
  | some x, some y => x - y
  | _, _ => 0

/-- Stable insertion for the sort: `x` (earlier in the original array) is
placed before the first `y` it does not compare greater than. -/
def sortInsert (x : RepoStat) : List RepoStat → List RepoStat
  | [] => [x]
  | y :: ys => if sortCompare x y ≤ 0 then x :: y :: ys else y :: sortInsert x ys

/-- `stats.sort((a, b) => (b.recent_activity || 0) - (a.recent_activity || 0))`
modelled as a stable insertion sort — the ECMAScript sort is required to be
stable, and for a consistent comparator every stable sort produces the same
permutation. -/
def jsSortByActivity : List RepoStat → List RepoStat
  | [] => []
  | x :: xs => sortInsert x (jsSortByActivity xs)

/-- One step of the `by_language` tally: `summary.by_language[lang] =
(summary.by_language[lang] || 0) + 1`, with the association list keeping the
object's key insertion order. -/
def bumpLanguage : List (String × Nat) → String → List (String × Nat)
  | [], lang => [(lang, 1)]
  | (l, c) :: rest, lang =>
      if l = lang then (l, c + 1) :: rest else (l, c) :: bumpLanguage rest lang

/-- The `forEach` tally of lines 196-200: only repositories with a truthy
(non-empty) `language` are counted. -/
def tallyByLanguage (stats : List RepoStat) : List (String × Nat) :=
  stats.foldl
    (fun acc repo => if repo.language = "" then acc else bumpLanguage acc repo.language)
    []

/-- The sum of the values of a `by_language` tally. -/
def tallyTotal (t : List (String × Nat)) : Nat := (t.map Prod.snd).sum

/-- The count recorded in a `by_language` tally under one key. -/
def tallyCount (t : List (String × Nat)) (lang : String) : Nat :=
  ((t.filter (fun p => p.1 = lang)).map Prod.snd).sum

/-- Shallow embedding of `saveRepositoryStats` (lines 173-205).  The summary's
fields are evaluated in source order: the counts and sums run on the array
before `most_active`'s `.sort` mutates it; the `forEach` tally runs after the
object literal, hence on the sorted array; `repositories` aliases the caller's
array, which the sort mutated in place.  The second component of the result is
the post-call content of the caller's `stats` array. -/
def saveRepositoryStats (stats : List RepoStat) : RepoStatsSummary × List RepoStat :=
  let sorted := jsSortByActivity stats
  ({ total_repos := stats.length
     active_repos := (stats.filter (fun r => !r.is_archived)).length
     total_stars := (stats.map (fun r => r.stars)).sum
     total_forks := (stats.map (fun r => r.forks)).sum
     by_language := tallyByLanguage sorted
     most_active :=
       (sorted.take 5).map (fun r => { name := r.name, activity := r.recent_activity })
     repositories := sorted },
   sorted)

/-- The value the specification's reading assigns to `recent_activity` for
ranking purposes: the number itself, with the sentinel `'N/A'` read as `0`. -/
def specActivityValue : ActivityVal → Nat
  | ActivityVal.num n => n
  | ActivityVal.na => 0

/-- `specActivityValue` of a repository record. -/
def repoActivity (r : RepoStat) : Nat := specActivityValue r.recent_activity

/-- `specActivityValue` of a `most_active` entry. -/
def entryActivity (e : MostActiveEntry) : Nat := specActivityValue e.activity

/-- A concrete raw repository with no language and a failing commit-activity
fetch, used as test data. -/
def rawAlpha : RawRepo :=
  { name := "alpha"
    html_url := "https://example.invalid/alpha"
    description := none
    language := none
    stargazers_count := 0
    forks_count := 0
    open_issues_count := 0
    topics := none
    fork := false
    privateFlag := false
    archived := false
    size := 0
    watchers_count := 0
    updated_at := "2025-01-01T00:00:00Z"
    created_at := "2024-01-01T00:00:00Z"
    pushed_at := "2025-01-01T00:00:00Z"
    visibility := "public"
    default_branch := "main" }

/-- A second concrete raw repository, with a language. -/
def rawBeta : RawRepo :=
  { rawAlpha with name := "beta", language := some "Rust" }

/-- The record for `rawAlpha` when its commit-activity fetch threw: its
`recent_activity` is the sentinel `'N/A'`. -/
def repoNA : RepoStat := mkRepoStat rawAlpha none

/-- The record for `rawBeta` with commit weeks `[2, 3]`: its
`recent_activity` is `5`. -/
def repoFive : RepoStat := mkRepoStat rawBeta (some [2, 3])

/-- A one-page remote listing: page 1 holds one repository, every later page
is empty.  Used to exercise the pagination loop on concrete data. -/
def listingOnePage : ListReposRequest → List RawRepo :=
  fun req => if req.page = 1 then [rawAlpha] else []

/-! ## Section 4: repository lifecycle (`closeStaleIssues`, `autoLabelIssues`) -/

/-- An open issue as fetched by `issues.listForRepo`, restricted to the fields
`closeStaleIssues` and `autoLabelIssues` read: `pull_request` is the
truthiness of the `pull_request` field (present exactly on pull requests),
`updated_at` is the parsed timestamp in milliseconds since the epoch
(`new Date(issue.updated_at)`), and `body` may be `null`. -/
structure Issue where
  number : Nat
  title : String
  body : Option String
  updated_at : Int
  pull_request : Bool
deriving DecidableEq

/-- A side effect `closeStaleIssues` performs on an issue: the explanatory
comment (`issues.createComment`) or the closing update (`issues.update` with
`state: closed`). -/
inductive IssueAction where
  | comment (issue_number : Nat) (body : String)
  | close (issue_number : Nat) (state_reason : String)
deriving DecidableEq

/-- Milliseconds per day: the cutoff computed by
`cutoffDate.setDate(cutoffDate.getDate() - daysInactive)` lies `daysInactive`
days before `now`. -/
def msPerDay : Int := 86400000

/-- The body of the stale-issue comment posted before closing. -/
def staleCommentBody (daysInactive : Int) : String :=
  "🤖 Closing due to inactivity (" ++ toString daysInactive ++
    "+ days). Feel free to reopen if still relevant."

/-- The result of `closeStaleIssues`, together with the ordered side effects
it performed. -/
structure CloseStaleResult where
  stale_count : Nat
  closed_count : Nat
  closed : List (Nat × String)
  actions : List IssueAction
deriving DecidableEq

/-- Shallow embedding of `closeStaleIssues` (lines 331-375): with `now` the
current time in milliseconds, the cutoff is `now` minus `daysInactive` days
(default 30); the fetched open `issues` are filtered to those last updated
strictly before the cutoff that are not pull requests; each stale issue is
commented on and then closed with reason `not_planned`, in order. -/
def closeStaleIssues (issues : List Issue) (now : Int)
    (daysInactive : Int := 30) : CloseStaleResult :=
  let cutoffDate := now - daysInactive * msPerDay
  let staleIssues := issues.filter
    (fun issue => decide (issue.updated_at < cutoffDate) && !issue.pull_request)
  let closed := staleIssues.map (fun issue => (issue.number, issue.title))
  { stale_count := staleIssues.length
    closed_count := closed.length
    closed := closed
    actions := staleIssues.flatMap
      (fun issue =>
        [IssueAction.comment issue.number (staleCommentBody daysInactive),
         IssueAction.close issue.number "not_planned"]) }

/-- The fixed keyword-to-label rules of `autoLabelIssues` (lines 380-386):
each regex is an alternation of literal keywords with the `i` flag. -/
def labelRules : List (String × List String) :=
  [("bug", ["bug", "error", "crash", "fail"]),
   ("feature", ["feature", "enhancement", "request", "add"]),
   ("documentation", ["doc", "readme", "guide", "tutorial"]),
   ("question", ["how", "why", "what", "help", "support"]),
   ("good first issue", ["beginner", "starter", "simple"])]

/-- `pat` occurs as a contiguous substring of `text` (both as char lists). -/
def charsContain (pat : List Char) : List Char → Bool
  | [] => pat.isEmpty
  | c :: cs => pat.isPrefixOf (c :: cs) || charsContain pat cs

/-- `.test(text)` for an unanchored alternation of literal keywords with the
`i` flag: some keyword occurs in `text` case-insensitively (the keywords are
lowercase, the text is lowered). -/
def regexTest (keywords : List String) (text : String) : Bool :=
  keywords.any (fun k => charsContain k.toList (text.toList.map Char.toLower))

/-- `issue.title + ' ' + (issue.body || '')` (line 400). -/
def issueText (issue : Issue) : String :=
  issue.title ++ " " ++ issue.body.getD ""

/-- The labels matched for one issue (lines 401-403): every rule whose regex
matches the concatenated title and body, not only the first. -/
def matchedLabels (issue : Issue) : List String :=
  (labelRules.filter (fun rule => regexTest rule.2 (issueText issue))).map
    (fun rule => rule.1)

/-- The result of `autoLabelIssues`, together with the `addLabels` calls it
issued (issue number with all the labels applied to it at once). -/
structure AutoLabelResult where
  processed : Nat
  labeled : Nat
  addLabelsCalls : List (Nat × List String)
deriving DecidableEq

/-- Shallow embedding of `autoLabelIssues` (lines 377-421): for each fetched
open issue with at least one matched label, one `addLabels` call applies all
the matched labels. -/
def autoLabelIssues (issues : List Issue) : AutoLabelResult :=
  { processed := issues.length
    labeled := (issues.filter (fun issue => !(matchedLabels issue).isEmpty)).length
    addLabelsCalls := issues.filterMap
      (fun issue =>
        if (matchedLabels issue).isEmpty then none
        else some (issue.number, matchedLabels issue)) }

/-- A concrete issue titled "App crashes on startup". -/
def crashIssue : Issue :=
  { number := 1
    title := "App crashes on startup"
    body := none
    updated_at := 0
    pull_request := false }

/-- A concrete issue titled "How do I configure this?". -/
def configIssue : Issue :=
  { number := 2
    title := "How do I configure this?"
    body := none
    updated_at := 0
    pull_request := false }

/-- A concrete issue matching both the `bug` and the `question` patterns. -/
def bothIssue : Issue :=
  { number := 3
    title := "App crashes on startup"
    body := some "how do I debug this?"
    updated_at := 0
    pull_request := false }

/-! ## Section 5: health report (`generateHealthReport`) -/

/-- One entry of `lintResults.checks`. -/
structure LintCheck where
  language : String
  status : String
deriving DecidableEq

/-- The `summary` of `scanSecurityVulnerabilities` that `generateHealthReport`
reads. -/
structure VulnSummary where
  critical : Nat
  high : Nat
  moderate : Nat
  low : Nat
deriving DecidableEq

/-- The fields of the stats summary that the recommendation rules read. -/
structure StatsTotals where
  total_repos : Nat
  active_repos : Nat
deriving DecidableEq

/-- `Object.keys` applied to a JavaScript array: the list of its index
strings `"0", "1", ...`. -/
def objectKeys (checks : List LintCheck) : List String :=
  (List.range checks.length).map (fun i => toString i)

/-- Property access `.status` on a string (an element of
`Object.keys(lintResults.checks)`): strings have no such property, so the
result is `undefined`. -/
def stringStatusProp (_ : String) : Option String := none

/-- The four recommendation messages of lines 440-451. -/
def criticalMsg : String := "🔴 CRITICAL: Address security vulnerabilities immediately"

/-- The high-severity recommendation message. -/
def highMsg : String := "🟠 HIGH: Review and patch high-priority vulnerabilities"

/-- The linting recommendation message. -/
def lintMsg : String := "🟡 MEDIUM: Fix linting errors across repositories"

/-- The archiving recommendation message. -/
def archiveMsg : String := "📦 Consider archiving completed projects for better organization"

/-- The recommendation list of `generateHealthReport` (lines 439-451), built
by four independent rules, each appending at most one message.  The third rule
iterates `Object.keys(lintResults.checks)` — the array's index strings, whose
`.status` is `undefined` — and the fourth compares the archived count
`total_repos - active_repos` against 5. -/
def recommendations (vuln : VulnSummary) (checks : List LintCheck)
    (statsData : StatsTotals) : List String :=
  (if vuln.critical > 0 then [criticalMsg] else []) ++
  (if vuln.high > 0 then [highMsg] else []) ++
  (if (objectKeys checks).any (fun c => stringStatusProp c == some "failed")
    then [lintMsg] else []) ++
  (if (statsData.total_repos : Int) - (statsData.active_repos : Int) > 5
    then [archiveMsg] else [])

/-- The recommendation list as claim C8 describes it (for comparison with the
code's `recommendations`): the third rule fires when some scanner check is
marked failed, and the fourth when the archived-to-active ratio exceeds 5
(stated multiplicatively). -/
def recommendationsSpec (vuln : VulnSummary) (checks : List LintCheck)
    (statsData : StatsTotals) : List String :=
  (if vuln.critical > 0 then [criticalMsg] else []) ++
  (if vuln.high > 0 then [highMsg] else []) ++
  (if checks.any (fun c => c.status == "failed") then [lintMsg] else []) ++
  (if 5 * (statsData.active_repos : Int)
      < (statsData.total_repos : Int) - (statsData.active_repos : Int)
    then [archiveMsg] else [])

end DailyPortfolioMaintenance

namespace DailyPortfolioMaintenance

/-! ### Helper lemmas about the sort and the tally -/

theorem sortInsert_perm (x : RepoStat) (l : List RepoStat) :
    List.Perm (sortInsert x l) (x :: l) := by
  induction l with
  | nil => exact List.Perm.refl _
  | cons y ys ih =>
      by_cases h : sortCompare x y ≤ 0
      · simp [sortInsert, h]
      · simp only [sortInsert, if_neg h]
        exact (ih.cons y).trans (List.Perm.swap x y ys)

theorem jsSortByActivity_perm (l : List RepoStat) :
    List.Perm (jsSortByActivity l) l := by
  induction l with
  | nil => exact List.Perm.refl _
  | cons x xs ih =>
      exact (sortInsert_perm x (jsSortByActivity xs)).trans (ih.cons x)

theorem sortCompare_num_iff (a b : RepoStat)
    (ha : a.recent_activity ≠ ActivityVal.na)
    (hb : b.recent_activity ≠ ActivityVal.na) :
    (sortCompare a b ≤ 0 ↔ repoActivity b ≤ repoActivity a) := by
  cases hA : a.recent_activity with
  | na => exact absurd hA ha
  | num m =>
      cases hB : b.recent_activity with
      | na => exact absurd hB hb
      | num n =>
          simp only [sortCompare, activityOrZeroNum, repoActivity, specActivityValue, hA, hB]
          omega

theorem sortInsert_pairwise (x : RepoStat) (l : List RepoStat)
    (hx : x.recent_activity ≠ ActivityVal.na)
    (hl : ∀ r ∈ l, r.recent_activity ≠ ActivityVal.na)
    (h : l.Pairwise (fun a b => repoActivity b ≤ repoActivity a)) :
    (sortInsert x l).Pairwise (fun a b => repoActivity b ≤ repoActivity a) := by
  induction l with
  | nil => simp [sortInsert]
  | cons y ys ih =>
      have hy : y.recent_activity ≠ ActivityVal.na := hl y (List.mem_cons_self y ys)
      have hys : ∀ r ∈ ys, r.recent_activity ≠ ActivityVal.na :=
        fun r hr => hl r (List.mem_cons_of_mem y hr)
      rcases List.pairwise_cons.mp h with ⟨hhead, htail⟩
      by_cases hc : sortCompare x y ≤ 0
      · have hxy : repoActivity y ≤ repoActivity x := (sortCompare_num_iff x y hx hy).mp hc
        simp only [sortInsert, if_pos hc]
        refine List.pairwise_cons.mpr ⟨?_, h⟩
        intro b hb
        rcases List.mem_cons.mp hb with rfl | hb'
        · exact hxy
        · exact le_trans (hhead b hb') hxy
      · have hyx : repoActivity x ≤ repoActivity y := by
          have hlt : ¬ repoActivity y ≤ repoActivity x :=
            fun hle => hc ((sortCompare_num_iff x y hx hy).mpr hle)
          omega
        simp only [sortInsert, if_neg hc]
        refine List.pairwise_cons.mpr ⟨?_, ih hys htail⟩
        intro b hb
        have hb' : b ∈ x :: ys := (sortInsert_perm x ys).mem_iff.mp hb
        rcases List.mem_cons.mp hb' with rfl | hb''
        · exact hyx
        · exact hhead b hb''

theorem jsSortByActivity_pairwise (l : List RepoStat)
    (hl : ∀ r ∈ l, r.recent_activity ≠ ActivityVal.na) :
    (jsSortByActivity l).Pairwise (fun a b => repoActivity b ≤ repoActivity a) := by
  induction l with
  | nil => simp [jsSortByActivity]
  | cons x xs ih =>
      have hx : x.recent_activity ≠ ActivityVal.na := hl x (List.mem_cons_self x xs)
      have hxs : ∀ r ∈ xs, r.recent_activity ≠ ActivityVal.na :=
        fun r hr => hl r (List.mem_cons_of_mem x hr)
      have hsorted : ∀ r ∈ jsSortByActivity xs, r.recent_activity ≠ ActivityVal.na :=
        fun r hr => hxs r ((jsSortByActivity_perm xs).mem_iff.mp hr)
      exact sortInsert_pairwise x (jsSortByActivity xs) hx hsorted (ih hxs)

theorem sortInsert_filter_activity (v : Nat) (x : RepoStat) (l : List RepoStat)
    (hx : x.recent_activity ≠ ActivityVal.na)
    (hl : ∀ r ∈ l, r.recent_activity ≠ ActivityVal.na) :
    (sortInsert x l).filter (fun r => repoActivity r == v)
      = if repoActivity x = v
          then x :: l.filter (fun r => repoActivity r == v)
          else l.filter (fun r => repoActivity r == v) := by
  induction l with
  | nil =>
      by_cases hv : repoActivity x = v <;>
        simp [sortInsert, List.filter_cons, beq_iff_eq, hv]
  | cons y ys ih =>
      have hy : y.recent_activity ≠ ActivityVal.na := hl y (List.mem_cons_self y ys)
      have hys : ∀ r ∈ ys, r.recent_activity ≠ ActivityVal.na :=
        fun r hr => hl r (List.mem_cons_of_mem y hr)
      by_cases hc : sortCompare x y ≤ 0
      · by_cases hv : repoActivity x = v <;>
          simp [sortInsert, if_pos hc, List.filter_cons, beq_iff_eq, hv]
      · have hyx : repoActivity x < repoActivity y := by
          have hlt : ¬ repoActivity y ≤ repoActivity x :=
            fun hle => hc ((sortCompare_num_iff x y hx hy).mpr hle)
          omega
        by_cases hv : repoActivity x = v
        · have hyv : ¬ (repoActivity y = v) := by omega
          simp [sortInsert, if_neg hc, List.filter_cons, beq_iff_eq, hv, hyv, ih hys]
        · by_cases hyv : repoActivity y = v <;>
            simp [sortInsert, if_neg hc, List.filter_cons, beq_iff_eq, hv, hyv, ih hys]

theorem jsSortByActivity_filter_activity (v : Nat) (l : List RepoStat)
    (hl : ∀ r ∈ l, r.recent_activity ≠ ActivityVal.na) :
    (jsSortByActivity l).filter (fun r => repoActivity r == v)
      = l.filter (fun r => repoActivity r == v) := by
  induction l with
  | nil => rfl
  | cons x xs ih =>
      have hx : x.recent_activity ≠ ActivityVal.na := hl x (List.mem_cons_self x xs)
      have hxs : ∀ r ∈ xs, r.recent_activity ≠ ActivityVal.na :=
        fun r hr => hl r (List.mem_cons_of_mem x hr)
      have hsorted : ∀ r ∈ jsSortByActivity xs, r.recent_activity ≠ ActivityVal.na :=
        fun r hr => hxs r ((jsSortByActivity_perm xs).mem_iff.mp hr)
      by_cases hv : repoActivity x = v
      · simp [jsSortByActivity, sortInsert_filter_activity v x _ hx hsorted, hv,
          List.filter_cons, beq_iff_eq, ih hxs]
      · simp [jsSortByActivity, sortInsert_filter_activity v x _ hx hsorted, hv,
          List.filter_cons, beq_iff_eq, ih hxs]

theorem tallyTotal_bump (t : List (String × Nat)) (lang : String) :
    tallyTotal (bumpLanguage t lang) = tallyTotal t + 1 := by
  induction t with
  | nil => rfl
  | cons p rest ih =>
      obtain ⟨l, c⟩ := p
      by_cases h : l = lang
      · simp [bumpLanguage, h, tallyTotal]
        omega
      · simp [bumpLanguage, h, tallyTotal] at ih ⊢
        omega

theorem tallyTotal_foldl (l : List RepoStat) :
    ∀ acc : List (String × Nat),
      tallyTotal
          (l.foldl
            (fun acc repo =>
              if repo.language = "" then acc else bumpLanguage acc repo.language)
            acc)
        = tallyTotal acc + (l.filter (fun r => !(r.language == ""))).length := by
  induction l with
  | nil => intro acc; simp
  | cons x xs ih =>
      intro acc
      by_cases h : x.language = ""
      · simp [List.foldl_cons, if_pos h, ih, List.filter_cons, h]
      · simp [List.foldl_cons, if_neg h, ih, List.filter_cons, h, tallyTotal_bump]
        omega

theorem tallyTotal_tallyByLanguage (l : List RepoStat)
    (hl : ∀ r ∈ l, r.language ≠ "") :
    tallyTotal (tallyByLanguage l) = l.length := by
  have hfilter : l.filter (fun r => !(r.language == "")) = l :=
    List.filter_eq_self.mpr (by
      intro r hr
      simp [hl r hr])
  have h := tallyTotal_foldl l []
  rw [hfilter] at h
  simpa [tallyByLanguage, tallyTotal] using h

theorem jsOrStr_ne_empty (v : Option String) (d : String) (hd : d ≠ "") :
    jsOrStr v d ≠ "" := by
  cases v with
  | none => exact hd
  | some s =>
      by_cases h : s = ""
      · simp only [jsOrStr, if_pos h]
        exact hd
      · simp only [jsOrStr, if_neg h]
        exact h

end DailyPortfolioMaintenance

namespace DailyPortfolioMaintenance

/-- Claim C1: starting from a persisted rotation state whose `currentIndex` is
`i ∈ {0,1,2}`, one invocation of `rotateFactCategory` writes back and returns
`currentIndex = (i+1) % 3` with `currentCategory = ROTATION_CYCLE[(i+1) % 3]`;
and after three further invocations (each reading the state the previous one
wrote) the returned category equals the category returned three invocations
prior. -/
theorem rotateFactCategory_roundRobin (i : Int) (now now1 now2 now3 : Nat)
    (h0 : 0 ≤ i) (h3 : i < 3) :
    (rotateFactCategory (PriorRotationFile.parsed (some (JSNum.int i))) now).currentIndex
        = JSNum.int ((i + 1) % 3) ∧
    (rotateFactCategory (PriorRotationFile.parsed (some (JSNum.int i))) now).currentCategory
        = ROTATION_CYCLE[((i + 1) % 3).toNat]? ∧
    (stepRotation now3 (stepRotation now2 (stepRotation now1
        (rotateFactCategory (PriorRotationFile.parsed (some (JSNum.int i))) now)))).currentCategory
        = (rotateFactCategory (PriorRotationFile.parsed (some (JSNum.int i))) now).currentCategory := by
  interval_cases i <;>
    refine ⟨rfl, rfl, rfl⟩

/-- Witness for C1 at `i = 0`. -/
theorem rotateFactCategory_roundRobin_witness :
    (0 : Int) ≤ 0 ∧ (0 : Int) < 3 ∧
    ((rotateFactCategory (PriorRotationFile.parsed (some (JSNum.int 0))) 0).currentIndex
        = JSNum.int ((0 + 1) % 3) ∧
     (rotateFactCategory (PriorRotationFile.parsed (some (JSNum.int 0))) 0).currentCategory
        = ROTATION_CYCLE[(((0 : Int) + 1) % 3).toNat]? ∧
     (stepRotation 0 (stepRotation 0 (stepRotation 0
        (rotateFactCategory (PriorRotationFile.parsed (some (JSNum.int 0))) 0)))).currentCategory
        = (rotateFactCategory (PriorRotationFile.parsed (some (JSNum.int 0))) 0).currentCategory) :=
  ⟨by decide, by decide, rotateFactCategory_roundRobin 0 0 0 0 0 (by decide) (by decide)⟩

/-- Counterexample to claim C2 as stated: if the prior state file parses but
has no `currentIndex` field (a realizable JSON value: the file holding `{}`),
then `existing.currentIndex` is `undefined`, the written state has
`currentIndex = NaN` — not an integer in `[0,3)` — and `currentCategory =
undefined`, not one of `LIFE`, `PEOPLE`, `TECH`. -/
theorem rotateFactCategory_missingField_invalid :
    (rotateFactCategory (PriorRotationFile.parsed none) 0).currentIndex = JSNum.nan ∧
    (rotateFactCategory (PriorRotationFile.parsed none) 0).currentCategory = none := by
  exact ⟨rfl, rfl⟩

/-- Claim C2 (amended): if the prior rotation file is absent, unparsable, or
parses to a value whose `currentIndex` is a nonnegative integer, then the
state `rotateFactCategory` writes back and returns has `currentIndex` an
integer in `[0,3)` and `currentCategory` one of `LIFE`, `PEOPLE`, `TECH`; and
the state file is written exactly once per invocation.  (As stated the claim
fails for other parsed JSON values, e.g. `{}`.) -/
theorem rotateFactCategory_invariant (prior : PriorRotationFile) (now : Nat)
    (h : prior = PriorRotationFile.missing ∨ prior = PriorRotationFile.unparsable ∨
         ∃ n : Int, 0 ≤ n ∧ prior = PriorRotationFile.parsed (some (JSNum.int n))) :
    (∃ m : Int, (rotateFactCategory prior now).currentIndex = JSNum.int m ∧
        0 ≤ m ∧ m < 3) ∧
    ((rotateFactCategory prior now).currentCategory = some "LIFE" ∨
     (rotateFactCategory prior now).currentCategory = some "PEOPLE" ∨
     (rotateFactCategory prior now).currentCategory = some "TECH") ∧
    (rotateFactCategoryWrites prior now).length = 1 ∧
    rotateFactCategoryWrites prior now = [rotateFactCategory prior now] := by
  rcases h with rfl | rfl | ⟨n, hn, rfl⟩
  · exact ⟨⟨0, rfl, by decide, by decide⟩, Or.inl rfl, rfl, rfl⟩
  · exact ⟨⟨0, rfl, by decide, by decide⟩, Or.inl rfl, rfl, rfl⟩
  · have hpos : (0 : Int) < 3 := by decide
    have hnn : 0 ≤ n + 1 := by omega
    have htm : (n + 1).tmod 3 = (n + 1) % 3 := Int.tmod_eq_emod hnn (by decide)
    have h0 : 0 ≤ (n + 1).tmod 3 := by
      rw [htm]; exact Int.emod_nonneg _ (by decide)
    have h3 : (n + 1).tmod 3 < 3 := by
      rw [htm]; exact Int.emod_lt_of_pos _ hpos
    have hidx : (rotateFactCategory (PriorRotationFile.parsed (some (JSNum.int n))) now).currentIndex
        = JSNum.int ((n + 1).tmod 3) := rfl
    refine ⟨⟨(n + 1).tmod 3, hidx, h0, h3⟩, ?_, rfl, rfl⟩
    have hcat : (rotateFactCategory (PriorRotationFile.parsed (some (JSNum.int n))) now).currentCategory
        = jsIndex ROTATION_CYCLE (JSNum.int ((n + 1).tmod 3)) := rfl
    rw [hcat]
    set m := (n + 1).tmod 3 with hm
    interval_cases m
    · exact Or.inl rfl
    · exact Or.inr (Or.inl rfl)
    · exact Or.inr (Or.inr rfl)

/-- Witness for C2 (amended) at a prior file with `currentIndex = 2`. -/
theorem rotateFactCategory_invariant_witness :
    (PriorRotationFile.parsed (some (JSNum.int 2)) = PriorRotationFile.missing ∨
     PriorRotationFile.parsed (some (JSNum.int 2)) = PriorRotationFile.unparsable ∨
     ∃ n : Int, 0 ≤ n ∧
       PriorRotationFile.parsed (some (JSNum.int 2)) = PriorRotationFile.parsed (some (JSNum.int n))) ∧
    ((∃ m : Int, (rotateFactCategory (PriorRotationFile.parsed (some (JSNum.int 2))) 0).currentIndex
          = JSNum.int m ∧ 0 ≤ m ∧ m < 3) ∧
     ((rotateFactCategory (PriorRotationFile.parsed (some (JSNum.int 2))) 0).currentCategory = some "LIFE" ∨
      (rotateFactCategory (PriorRotationFile.parsed (some (JSNum.int 2))) 0).currentCategory = some "PEOPLE" ∨
      (rotateFactCategory (PriorRotationFile.parsed (some (JSNum.int 2))) 0).currentCategory = some "TECH") ∧
     (rotateFactCategoryWrites (PriorRotationFile.parsed (some (JSNum.int 2))) 0).length = 1 ∧
     rotateFactCategoryWrites (PriorRotationFile.parsed (some (JSNum.int 2))) 0
        = [rotateFactCategory (PriorRotationFile.parsed (some (JSNum.int 2))) 0]) :=
  ⟨Or.inr (Or.inr ⟨2, by decide, rfl⟩),
   rotateFactCategory_invariant (PriorRotationFile.parsed (some (JSNum.int 2))) 0
     (Or.inr (Or.inr ⟨2, by decide, rfl⟩))⟩

/-- Claim C3: when the rotation state file is missing or corrupt (read, parse
or property access throws), a single invocation of `rotateFactCategory` yields
`currentIndex = 0` (and hence category `LIFE`) and does not throw — the
embedding is a total function and both fresh-start paths produce the same
wrap-to-start state. -/
theorem rotateFactCategory_freshStart (now : Nat) :
    (rotateFactCategory PriorRotationFile.missing now).currentIndex = JSNum.int 0 ∧
    (rotateFactCategory PriorRotationFile.unparsable now).currentIndex = JSNum.int 0 ∧
    (rotateFactCategory PriorRotationFile.missing now).currentCategory = some "LIFE" ∧
    (rotateFactCategory PriorRotationFile.unparsable now).currentCategory = some "LIFE" :=
  ⟨rfl, rfl, rfl, rfl⟩

end DailyPortfolioMaintenance

namespace DailyPortfolioMaintenance

/-- Claim C4 (amended): every record produced by `fetchRepositoryStats` has a
non-empty `language` (falsy raw languages are defaulted to `"Unknown"`);
consequently every record's language is truthy, the `by_language` tally counts
every repository — those with a missing raw language under `"Unknown"` — and
the sum of the `by_language` values equals `total_repos` (so `≤` holds, but
not because anything is excluded from the grouping: nothing is). -/
theorem saveRepositoryStats_byLanguage (repos : List RawRepo)
    (commitData : String → Option (List Nat)) :
    (∀ r ∈ fetchRepositoryStatsRecords repos commitData, r.language ≠ "") ∧
    tallyTotal
        (saveRepositoryStats (fetchRepositoryStatsRecords repos commitData)).1.by_language
      = (saveRepositoryStats (fetchRepositoryStatsRecords repos commitData)).1.total_repos := by
  have hlang : ∀ r ∈ fetchRepositoryStatsRecords repos commitData, r.language ≠ "" := by
    intro r hr
    rcases List.mem_map.mp hr with ⟨repo, _, rfl⟩
    exact jsOrStr_ne_empty repo.language "Unknown" (by decide)
  refine ⟨hlang, ?_⟩
  have hperm := jsSortByActivity_perm (fetchRepositoryStatsRecords repos commitData)
  have hsortedlang :
      ∀ r ∈ jsSortByActivity (fetchRepositoryStatsRecords repos commitData), r.language ≠ "" :=
    fun r hr => hlang r (hperm.mem_iff.mp hr)
  calc
    tallyTotal
        (saveRepositoryStats (fetchRepositoryStatsRecords repos commitData)).1.by_language
        = tallyTotal (tallyByLanguage (jsSortByActivity (fetchRepositoryStatsRecords repos commitData))) := rfl
    _ = (jsSortByActivity (fetchRepositoryStatsRecords repos commitData)).length :=
          tallyTotal_tallyByLanguage _ hsortedlang
    _ = (fetchRepositoryStatsRecords repos commitData).length := hperm.length_eq
    _ = (saveRepositoryStats (fetchRepositoryStatsRecords repos commitData)).1.total_repos := rfl

/-- Witness for C4 (amended) on a single repository with `language: null`. -/
theorem saveRepositoryStats_byLanguage_witness :
    (∀ r ∈ fetchRepositoryStatsRecords [rawAlpha] (fun _ => none), r.language ≠ "") ∧
    tallyTotal
        (saveRepositoryStats (fetchRepositoryStatsRecords [rawAlpha] (fun _ => none))).1.by_language
      = (saveRepositoryStats (fetchRepositoryStatsRecords [rawAlpha] (fun _ => none))).1.total_repos :=
  saveRepositoryStats_byLanguage [rawAlpha] (fun _ => none)

/-- Counterexample to claim C4 as stated: a repository whose raw `language` is
`null` is defaulted to `"Unknown"` by `fetchRepositoryStats`, and
`saveRepositoryStats` then DOES count it in the group-by under `"Unknown"`
(its record language is truthy), rather than excluding it from the tally. -/
theorem byLanguage_countsUnknown :
    rawAlpha.language = none ∧
    (saveRepositoryStats (fetchRepositoryStatsRecords [rawAlpha] (fun _ => none))).1.by_language
      = [("Unknown", 1)] ∧
    tallyCount
        (saveRepositoryStats (fetchRepositoryStatsRecords [rawAlpha] (fun _ => none))).1.by_language
        "Unknown" = 1 := by
  refine ⟨rfl, by decide, by decide⟩

/-- Claim C5 (amended): for input lists all of whose `recent_activity` values
are numbers, `most_active` is sorted descending by `recent_activity`, has
length at most 5, and ties are broken by stable original order (for each
activity value, the matching entries form an order-preserving prefix of the
matching input records).  Records with `recent_activity = 'N/A'` escape this
ranking: the comparator evaluates to `NaN`, which the sort treats as equality,
so such records keep their original position instead of being ranked. -/
theorem saveRepositoryStats_mostActive (stats : List RepoStat) (v : Nat)
    (hnum : ∀ r ∈ stats, r.recent_activity ≠ ActivityVal.na) :
    ((saveRepositoryStats stats).1.most_active).length ≤ 5 ∧
    ((saveRepositoryStats stats).1.most_active).Pairwise
      (fun a b => entryActivity b ≤ entryActivity a) ∧
    ((saveRepositoryStats stats).1.most_active).filter (fun e => entryActivity e == v)
      <+: (stats.filter (fun r => repoActivity r == v)).map
            (fun r => { name := r.name, activity := r.recent_activity }) := by
  have hma : (saveRepositoryStats stats).1.most_active
      = ((jsSortByActivity stats).take 5).map
          (fun r => ({ name := r.name, activity := r.recent_activity } : MostActiveEntry)) := rfl
  refine ⟨?_, ?_, ?_⟩
  · rw [hma, List.length_map]
    exact List.length_take_le 5 _
  · rw [hma]
    refine (List.pairwise_map).mpr ?_
    have hsorted := jsSortByActivity_pairwise stats hnum
    exact hsorted.sublist (List.take_sublist 5 _)
  · rw [hma, List.filter_map]
    have h1 : ((jsSortByActivity stats).take 5).filter (fun r => repoActivity r == v)
        <+: (jsSortByActivity stats).filter (fun r => repoActivity r == v) :=
      (List.take_prefix 5 _).filter _
    rw [jsSortByActivity_filter_activity v stats hnum] at h1
    have h3 := h1.map
      (fun r => ({ name := r.name, activity := r.recent_activity } : MostActiveEntry))
    simpa [Function.comp, entryActivity, repoActivity] using h3

/-- Witness for C5 (amended) on a two-record all-numeric input. -/
theorem saveRepositoryStats_mostActive_witness :
    (∀ r ∈ [repoFive, repoFive], r.recent_activity ≠ ActivityVal.na) ∧
    (((saveRepositoryStats [repoFive, repoFive]).1.most_active).length ≤ 5 ∧
     ((saveRepositoryStats [repoFive, repoFive]).1.most_active).Pairwise
       (fun a b => entryActivity b ≤ entryActivity a) ∧
     ((saveRepositoryStats [repoFive, repoFive]).1.most_active).filter
         (fun e => entryActivity e == 5)
       <+: (([repoFive, repoFive].filter (fun r => repoActivity r == 5)).map
             (fun r => { name := r.name, activity := r.recent_activity }))) :=
  ⟨by decide, saveRepositoryStats_mostActive [repoFive, repoFive] 5 (by decide)⟩

/-- Counterexample to claim C5 as stated: on an input containing a record
whose `recent_activity` is the sentinel `'N/A'` (a record
`fetchRepositoryStats` produces when the commit fetch fails), the `'N/A'`
record keeps its place ahead of a record with activity 5, so `most_active` is
not sorted descending by `recent_activity` (reading `'N/A'` as 0, its value 0
precedes 5). -/
theorem mostActive_na_not_sorted :
    (saveRepositoryStats [repoNA, repoFive]).1.most_active
      = [{ name := "alpha", activity := ActivityVal.na },
         { name := "beta", activity := ActivityVal.num 5 }] ∧
    entryActivity { name := "alpha", activity := ActivityVal.na }
      < entryActivity { name := "beta", activity := ActivityVal.num 5 } :=
  ⟨by decide, by decide⟩

/-- Claim C10 (amended): `saveRepositoryStats` sorts the stats array it is
given in place with the comparator
`(b.recent_activity || 0) - (a.recent_activity || 0)`.  `'N/A'` is not
coerced to 0: being truthy it survives the `||`, the subtraction yields `NaN`,
and the sort treats a `NaN` comparator result as equality, so `'N/A'` records
keep their relative position.  After the call the caller's array and the
summary's `repositories` field are the same array, a permutation of the input
(every record, hence every other field, unchanged), and when all
`recent_activity` values are numeric it is ordered descending. -/
theorem saveRepositoryStats_sortsInPlace (stats : List RepoStat)
    (hnum : ∀ r ∈ stats, r.recent_activity ≠ ActivityVal.na) :
    (saveRepositoryStats stats).2 = (saveRepositoryStats stats).1.repositories ∧
    List.Perm ((saveRepositoryStats stats).2) stats ∧
    ((saveRepositoryStats stats).2).Pairwise
      (fun a b => repoActivity b ≤ repoActivity a) :=
  ⟨rfl, jsSortByActivity_perm stats, jsSortByActivity_pairwise stats hnum⟩

/-- Witness for C10 (amended) on a two-record all-numeric input. -/
theorem saveRepositoryStats_sortsInPlace_witness :
    (∀ r ∈ [repoFive, repoFive], r.recent_activity ≠ ActivityVal.na) ∧
    ((saveRepositoryStats [repoFive, repoFive]).2
        = (saveRepositoryStats [repoFive, repoFive]).1.repositories ∧
     List.Perm ((saveRepositoryStats [repoFive, repoFive]).2) [repoFive, repoFive] ∧
     ((saveRepositoryStats [repoFive, repoFive]).2).Pairwise
       (fun a b => repoActivity b ≤ repoActivity a)) :=
  ⟨by decide, saveRepositoryStats_sortsInPlace [repoFive, repoFive] (by decide)⟩

/-- Counterexample to claim C10 as stated: `'N/A'` is not coerced to 0 by the
comparator.  After the call on `[repoNA, repoFive]` the caller's array is
still `[repoNA, repoFive]`: the `'N/A'` record stayed ahead of the record with
activity 5, so the array is NOT ordered by `recent_activity` descending under
the claimed coercion (0 < 5). -/
theorem sortInPlace_na_counterexample :
    (saveRepositoryStats [repoNA, repoFive]).2 = [repoNA, repoFive] ∧
    repoActivity repoNA < repoActivity repoFive :=
  ⟨by decide, by decide⟩

/-- Helper for C9: as long as pages `page, ..., N-1` are non-empty and page
`N` is empty, the pagination loop starting at `page` with enough fuel issues
exactly the page-size-100 requests for pages `page..N` and accumulates the
concatenation of the non-empty pages. -/
theorem fetchAllPages_eq (listing : ListReposRequest → List RawRepo) (N : Nat)
    (hN : listing { per_page := 100, page := N } = [])
    (hne : ∀ p, 1 ≤ p → p < N → listing { per_page := 100, page := p } ≠ []) :
    ∀ fuel page acc, 1 ≤ page → page ≤ N → N - page < fuel →
      fetchAllPages listing fuel page acc
        = some ((List.range' page (N - page + 1)).map
                  (fun p => { per_page := 100, page := p }),
                acc ++ (List.range' page (N - page)).flatMap
                  (fun p => listing { per_page := 100, page := p })) := by
  intro fuel
  induction fuel with
  | zero => intro page acc _ _ h3; omega
  | succ fuel ih =>
      intro page acc h1 h2 h3
      by_cases hpN : page = N
      · subst hpN
        simp [fetchAllPages, hN, Nat.sub_self, List.range'_one]
      · have hlt : page < N := Nat.lt_of_le_of_ne h2 hpN
        have hdata : listing { per_page := 100, page := page } ≠ [] := hne page h1 hlt
        have hie : (listing { per_page := 100, page := page }).isEmpty = false := by
          simpa [List.isEmpty_iff] using hdata
        have hrec := ih (page + 1) (acc ++ listing { per_page := 100, page := page })
          (by omega) (by omega) (by omega)
        have hsub : N - page = (N - (page + 1)) + 1 := by omega
        have hreqs : (List.range' page (N - page + 1)).map
              (fun p => ({ per_page := 100, page := p } : ListReposRequest))
            = { per_page := 100, page := page }
                :: (List.range' (page + 1) (N - (page + 1) + 1)).map
                  (fun p => { per_page := 100, page := p }) := by
          rw [hsub, List.range'_succ page (N - (page + 1) + 1) 1, List.map_cons]
        have hout : acc ++ (List.range' page (N - page)).flatMap
              (fun p => listing { per_page := 100, page := p })
            = (acc ++ listing { per_page := 100, page := page })
                ++ (List.range' (page + 1) (N - (page + 1))).flatMap
                  (fun p => listing { per_page := 100, page := p }) := by
          rw [hsub, List.range'_succ page (N - (page + 1)) 1, List.flatMap_cons,
            List.append_assoc]
        simp only [fetchAllPages, hie, Bool.false_eq_true, if_false, hrec, hreqs, hout]

/-- Claim C9: the pagination loop of `fetchRepositoryStats` issues requests
with page size 100 for pages `1, 2, ...`, stops exactly at the first empty
page `N`, accumulates the concatenation of the non-empty pages `1..N-1`, and —
under the precondition that the listing eventually returns an empty page —
terminates: the fuelled loop returns a result for every fuel `≥ N`. -/
theorem fetchRepositoryStats_pagination_correct
    (listing : ListReposRequest → List RawRepo) (N fuel : Nat)
    (h1 : 1 ≤ N)
    (hN : listing { per_page := 100, page := N } = [])
    (hne : ∀ p, 1 ≤ p → p < N → listing { per_page := 100, page := p } ≠ [])
    (hfuel : N ≤ fuel) :
    fetchRepositoryStatsPagination listing fuel
      = some ((List.range' 1 N).map (fun p => { per_page := 100, page := p }),
              (List.range' 1 (N - 1)).flatMap
                (fun p => listing { per_page := 100, page := p })) := by
  have h := fetchAllPages_eq listing N hN hne fuel 1 [] (le_refl 1) h1 (by omega)
  have hN1 : N - 1 + 1 = N := by omega
  rw [fetchRepositoryStatsPagination, h, hN1]
  simp

/-- Witness for C9: a listing whose page 1 holds one repository and whose
page 2 is empty, paginated with fuel 2. -/
theorem fetchRepositoryStats_pagination_witness :
    (1 ≤ 2 ∧ listingOnePage { per_page := 100, page := 2 } = [] ∧
     (∀ p, 1 ≤ p → p < 2 → listingOnePage { per_page := 100, page := p } ≠ []) ∧
     2 ≤ 2) ∧
    fetchRepositoryStatsPagination listingOnePage 2
      = some ((List.range' 1 2).map (fun p => { per_page := 100, page := p }),
              (List.range' 1 (2 - 1)).flatMap
                (fun p => listingOnePage { per_page := 100, page := p })) :=
  ⟨⟨by decide, by decide,
    by
      intro p hp1 hp2
      have hp : p = 1 := by omega
      subst hp
      decide,
    by decide⟩,
   fetchRepositoryStats_pagination_correct listingOnePage 2 2 (by decide) (by decide)
     (by
       intro p hp1 hp2
       have hp : p = 1 := by omega
       subst hp
       decide)
     (by decide)⟩

end DailyPortfolioMaintenance

namespace DailyPortfolioMaintenance

/-- Claim C6: with the default 30-day threshold, `closeStaleIssues` closes
exactly the fetched open issues that are not pull requests and were last
updated strictly before `now` minus 30 days, commenting on each and then
closing it as `not_planned`; concretely, of three issues last updated 5, 31
and 45 days ago, exactly the latter two are closed (comment then close, in
order) and the 5-day-old issue is untouched. -/
theorem closeStaleIssues_correct (issues : List Issue) (now : Int) :
    (closeStaleIssues issues now).closed
      = (issues.filter
          (fun issue =>
            decide (issue.updated_at < now - 30 * msPerDay) && !issue.pull_request)).map
          (fun issue => (issue.number, issue.title)) ∧
    (closeStaleIssues issues now).actions
      = (issues.filter
          (fun issue =>
            decide (issue.updated_at < now - 30 * msPerDay) && !issue.pull_request)).flatMap
          (fun issue =>
            [IssueAction.comment issue.number (staleCommentBody 30),
             IssueAction.close issue.number "not_planned"]) ∧
    (closeStaleIssues
        [{ number := 1, title := "a", body := none,
           updated_at := now - 5 * msPerDay, pull_request := false },
         { number := 2, title := "b", body := none,
           updated_at := now - 31 * msPerDay, pull_request := false },
         { number := 3, title := "c", body := none,
           updated_at := now - 45 * msPerDay, pull_request := false }] now).closed
      = [(2, "b"), (3, "c")] ∧
    (closeStaleIssues
        [{ number := 1, title := "a", body := none,
           updated_at := now - 5 * msPerDay, pull_request := false },
         { number := 2, title := "b", body := none,
           updated_at := now - 31 * msPerDay, pull_request := false },
         { number := 3, title := "c", body := none,
           updated_at := now - 45 * msPerDay, pull_request := false }] now).actions
      = [IssueAction.comment 2 (staleCommentBody 30),
         IssueAction.close 2 "not_planned",
         IssueAction.comment 3 (staleCommentBody 30),
         IssueAction.close 3 "not_planned"] := by
  have h5 : decide ((30 : Int) * msPerDay < 5 * msPerDay) = false := by
    simp only [msPerDay, decide_eq_false_iff_not]
    omega
  have h31 : decide ((30 : Int) * msPerDay < 31 * msPerDay) = true := by
    simp only [msPerDay, decide_eq_true_eq]
    omega
  have h45 : decide ((30 : Int) * msPerDay < 45 * msPerDay) = true := by
    simp only [msPerDay, decide_eq_true_eq]
    omega
  refine ⟨rfl, rfl, ?_, ?_⟩ <;>
    simp [closeStaleIssues, List.filter, h5, h31, h45]

/-- Claim C7: `autoLabelIssues` matches every label whose keyword regex
matches the concatenated title and body, not just the first match, and applies
all of them in one `addLabels` call; concretely, "App crashes on startup"
matches exactly `bug`, "How do I configure this?" matches exactly `question`,
and an issue matching both patterns receives both labels. -/
theorem autoLabelIssues_allMatches (issues : List Issue) (issue : Issue)
    (lab : String) :
    (lab ∈ matchedLabels issue ↔
      ∃ kws, (lab, kws) ∈ labelRules ∧ regexTest kws (issueText issue) = true) ∧
    (∀ i ∈ issues, matchedLabels i ≠ [] →
      (i.number, matchedLabels i) ∈ (autoLabelIssues issues).addLabelsCalls) ∧
    matchedLabels crashIssue = ["bug"] ∧
    matchedLabels configIssue = ["question"] ∧
    matchedLabels bothIssue = ["bug", "question"] := by
  refine ⟨?_, ?_, by decide, by decide, by decide⟩
  · constructor
    · intro h
      rcases List.mem_map.mp h with ⟨rule, hrule, rfl⟩
      rcases List.mem_filter.mp hrule with ⟨hmem, htest⟩
      exact ⟨rule.2, hmem, htest⟩
    · rintro ⟨kws, hmem, htest⟩
      exact List.mem_map.mpr ⟨(lab, kws), List.mem_filter.mpr ⟨hmem, htest⟩, rfl⟩
  · intro i hi hne
    refine List.mem_filterMap.mpr ⟨i, hi, ?_⟩
    have hempty : (matchedLabels i).isEmpty = false := by
      simpa [List.isEmpty_iff] using hne
    simp [hempty]

/-- Witness for C7, applied to the crashing issue with label `bug`. -/
theorem autoLabelIssues_allMatches_witness :
    (("bug" ∈ matchedLabels crashIssue ↔
      ∃ kws, ("bug", kws) ∈ labelRules ∧
        regexTest kws (issueText crashIssue) = true) ∧
     (∀ i ∈ [crashIssue], matchedLabels i ≠ [] →
        (i.number, matchedLabels i) ∈ (autoLabelIssues [crashIssue]).addLabelsCalls) ∧
     matchedLabels crashIssue = ["bug"] ∧
     matchedLabels configIssue = ["question"] ∧
     matchedLabels bothIssue = ["bug", "question"]) :=
  autoLabelIssues_allMatches [crashIssue] crashIssue "bug"

/-- The third recommendation rule can never fire: `Object.keys` of the checks
array yields index strings, and a string's `.status` is `undefined`, never
`'failed'`. -/
theorem lintRule_never_fires (checks : List LintCheck) :
    ((objectKeys checks).any (fun c => stringStatusProp c == some "failed")) = false := by
  simp [objectKeys, stringStatusProp]

/-- Claim C8 (amended): the recommendation list is built by independently
evaluating four threshold rules — `critical > 0`, `high > 0`, a lint rule over
`Object.keys(lintResults.checks)` (index strings whose `.status` is
`undefined`, so it never fires), and archived count
`total_repos - active_repos > 5` (a count, not the archived-to-active ratio) —
each appending at most one message; a vulnerability summary with
`critical = 1` and `high = 0` produces the critical-level recommendation and
not the high-level one, whatever the other inputs. -/
theorem generateHealthReport_recommendations (vuln : VulnSummary)
    (checks : List LintCheck) (statsData : StatsTotals)
    (hc : vuln.critical = 1) (hh : vuln.high = 0) :
    (∀ msg, (recommendations vuln checks statsData).count msg ≤ 1) ∧
    criticalMsg ∈ recommendations vuln checks statsData ∧
    highMsg ∉ recommendations vuln checks statsData ∧
    lintMsg ∉ recommendations vuln checks statsData := by
  have hcrit : vuln.critical > 0 := by omega
  have hhigh : ¬ vuln.high > 0 := by omega
  have hlint := lintRule_never_fires checks
  by_cases hd : (statsData.total_repos : Int) - (statsData.active_repos : Int) > 5
  · simp only [recommendations, if_pos hcrit, if_neg hhigh, hlint,
      Bool.false_eq_true, if_false, if_pos hd, List.nil_append, List.singleton_append]
    refine ⟨?_, by decide, by decide, by decide⟩
    intro msg
    exact List.nodup_iff_count_le_one.mp (by decide) msg
  · simp only [recommendations, if_pos hcrit, if_neg hhigh, hlint,
      Bool.false_eq_true, if_false, if_neg hd, List.nil_append, List.singleton_append,
      List.append_nil]
    refine ⟨?_, by decide, by decide, by decide⟩
    intro msg
    exact List.nodup_iff_count_le_one.mp (by decide) msg

/-- Witness for C8 (amended) at `critical = 1`, `high = 0`, no checks, no
repositories. -/
theorem generateHealthReport_recommendations_witness :
    ((VulnSummary.mk 1 0 0 0).critical = 1 ∧ (VulnSummary.mk 1 0 0 0).high = 0) ∧
    ((∀ msg, (recommendations (VulnSummary.mk 1 0 0 0) [] (StatsTotals.mk 0 0)).count msg ≤ 1) ∧
     criticalMsg ∈ recommendations (VulnSummary.mk 1 0 0 0) [] (StatsTotals.mk 0 0) ∧
     highMsg ∉ recommendations (VulnSummary.mk 1 0 0 0) [] (StatsTotals.mk 0 0) ∧
     lintMsg ∉ recommendations (VulnSummary.mk 1 0 0 0) [] (StatsTotals.mk 0 0)) :=
  ⟨⟨rfl, rfl⟩,
   generateHealthReport_recommendations (VulnSummary.mk 1 0 0 0) [] (StatsTotals.mk 0 0)
     rfl rfl⟩

/-- Counterexample to claim C8 as stated: the third and fourth rules are not
the claimed ones.  With no vulnerabilities, no checks, 10 total and 4 active
repositories, the archived-to-active ratio is `6/4 ≤ 5`, yet the code appends
the archiving recommendation (it tests the archived count
`total_repos - active_repos > 5`); and with a check marked `failed` the
claimed rule would recommend fixing lint errors while the code appends
nothing (`Object.keys` yields index strings whose `.status` is `undefined`). -/
theorem recommendations_rules_counterexample :
    recommendations (VulnSummary.mk 0 0 0 0) [] (StatsTotals.mk 10 4) = [archiveMsg] ∧
    recommendationsSpec (VulnSummary.mk 0 0 0 0) [] (StatsTotals.mk 10 4) = [] ∧
    recommendations (VulnSummary.mk 0 0 0 0) [LintCheck.mk "js" "failed"]
        (StatsTotals.mk 0 0) = [] ∧
    recommendationsSpec (VulnSummary.mk 0 0 0 0) [LintCheck.mk "js" "failed"]
        (StatsTotals.mk 0 0) = [lintMsg] :=
  ⟨by decide, by decide, by decide, by decide⟩

end DailyPortfolioMaintenance
